import Mathlib

/-!
Verification development for the match-statistics aggregation engine
(the Go demo parser in `src/unnamed/part_014`, lines 268-590).

The engine consumes an ordered stream of decoded in-game events and
produces per-player statistics.  We embed the event handlers, the
round bookkeeping, the finalization pass and the result assembly as
executable Lean functions, and prove the specification claims about
them.

Modelling conventions:
* Go maps (`map[uint64]*PlayerStats`, `map[uint64]int`, `map[int]int`,
  `map[string]int`) are association lists whose update discipline
  (insert-if-absent, modify-in-place) mirrors Go map/pointer semantics.
  Go map iteration order is unspecified; where the source iterates a map
  we iterate the association list and note order-independence.
* `p.GameState().IsMatchStarted()` is external stream state queried per
  event; each dispatched event therefore carries the boolean that the
  query returned at that moment (`Bool × Event`).
* Go `float64` arithmetic in the finalization pass is modelled with
  exact rationals (`ℚ`); `int(x)` conversion is truncation toward zero.
* Nullable pointers (`e.Killer`, `e.Attacker`, ...) are `Option Player`.
-/

namespace Unbalanced

/-- A player as the handlers see it: `SteamID64`, `Name`, `Team`. -/
structure Player where
  steamID : Nat
  name : String
  team : Nat
  deriving DecidableEq, Repr

/-- The weapon categories the damage handler distinguishes
(`common.EqMolotov`, `common.EqIncendiary`, `common.EqHE`, anything else). -/
inductive EquipmentType where
  | molotov
  | incendiary
  | he
  | other
  deriving DecidableEq, Repr

/-- A weapon: its equipment type and its display name (`e.Weapon.String()`). -/
structure Weapon where
  type : EquipmentType
  name : String
  deriving DecidableEq, Repr

/-- The event kinds the engine registers handlers for. -/
inductive Event where
  | roundStart
  | roundEnd
  | kill (killer victim assister : Option Player) (weapon : Option Weapon)
      (isHeadshot : Bool) (assistedFlash : Bool)
  | playerHurt (attacker victim : Option Player) (healthDamage : Nat)
      (weapon : Option Weapon)
  | playerFlashed (attacker player : Option Player)
  | bombPlanted (player : Option Player)
  | bombDefused (player : Option Player)
  deriving DecidableEq, Repr

/-- Record `PlayerStats` of the source: the per-player accumulator. -/
structure PlayerStats where
  player : String
  steamID : Nat
  teamNum : Nat
  kills : Nat
  deaths : Nat
  assists : Nat
  kd : ℚ
  adr : ℚ
  hsPercent : ℚ
  score : Int
  damage : Nat
  utilityDamage : Nat
  flashed : Nat
  teamFlashed : Nat
  flashAssists : Nat
  totalSpent : Nat
  entryKills : Nat
  entryDeaths : Nat
  clutchWins : Nat
  multiKills : List (Nat × Nat)
  weaponKills : List (String × Nat)
  bombPlants : Nat
  bombDefuses : Nat
  headshots : Nat
  deriving DecidableEq, Repr

/-- Association-list lookup by key (first match), modelling Go map read. -/
def lookupK {κ α : Type} [DecidableEq κ] : List (κ × α) → κ → Option α
  | [], _ => none
  | kv :: rest, k => if kv.1 = k then some kv.2 else lookupK rest k

/-- Modify the (first) entry with the given key, if present; modelling a
write through a pointer obtained from a Go map. -/
def modifyK {κ α : Type} [DecidableEq κ] : List (κ × α) → κ → (α → α) → List (κ × α)
  | [], _, _ => []
  | kv :: rest, k, f => if kv.1 = k then (kv.1, f kv.2) :: rest else kv :: modifyK rest k f

/-- Go `m[k]++` on a counter map with zero default. -/
def bumpK {κ : Type} [DecidableEq κ] (l : List (κ × Nat)) (k : κ) : List (κ × Nat) :=
  match lookupK l k with
  | some _ => modifyK l k (fun n => n + 1)
  | none => l ++ [(k, 1)]

/-- The zero-valued record a fresh `getStats` entry starts from
(`&PlayerStats{Player: p.Name, SteamID: ..., TeamNum: ..., ...}`). -/
def PlayerStats.init (p : Player) : PlayerStats :=
  { player := p.name, steamID := p.steamID, teamNum := p.team,
    kills := 0, deaths := 0, assists := 0, kd := 0, adr := 0, hsPercent := 0,
    score := 0, damage := 0, utilityDamage := 0, flashed := 0, teamFlashed := 0,
    flashAssists := 0, totalSpent := 0, entryKills := 0, entryDeaths := 0,
    clutchWins := 0, multiKills := [], weaponKills := [], bombPlants := 0,
    bombDefuses := 0, headshots := 0 }

/-- The all-zero record used as the value of an absent map entry when we
read counters of a player the map does not know. -/
def emptyStats : PlayerStats := PlayerStats.init { steamID := 0, name := "", team := 0 }

/-- The unconditional name/team refresh `getStats` performs on every call
(`if p.Name != "" {...}; if p.Team > 0 {...}`). -/
def refreshIdent (p : Player) (r : PlayerStats) : PlayerStats :=
  { r with player := if p.name = "" then r.player else p.name,
           teamNum := if 0 < p.team then p.team else r.teamNum }

/-- Model of `getStats`: get-or-insert the record for a (non-nil) player, then
refresh name and team. -/
def ensureStats (l : List (Nat × PlayerStats)) (p : Player) : List (Nat × PlayerStats) :=
  modifyK
    (match lookupK l p.steamID with
      | none => l ++ [(p.steamID, PlayerStats.init p)]
      | some _ => l)
    p.steamID (refreshIdent p)

/-- Aggregation state: the stats map, `totalRounds`, `roundKills`, and
`firstKillOccurred`. -/
structure ProcState where
  stats : List (Nat × PlayerStats)
  totalRounds : Nat
  roundKills : List (Nat × Nat)
  firstKillOccurred : Bool
  deriving DecidableEq, Repr

/-- State before any event: empty maps, zero rounds, entry flag clear. -/
def initState : ProcState :=
  { stats := [], totalRounds := 0, roundKills := [], firstKillOccurred := false }

/-- The weapon test of the `PlayerHurt` handler
(`e.Weapon != nil && (Type == EqMolotov || EqIncendiary || EqHE)`). -/
def isUtilityWeapon : Option Weapon → Bool
  | some w => w.type = EquipmentType.molotov || w.type = EquipmentType.incendiary
      || w.type = EquipmentType.he
  | none => false

/-- Lift of `getStats` to a nullable player: a nil player produces no effect and
no record. -/
def ensureOpt (l : List (Nat × PlayerStats)) : Option Player → List (Nat × PlayerStats)
  | some p => ensureStats l p
  | none => l

/-- A mutation through a nullable `getStats` result: nil player, no
effect. -/
def modOpt (l : List (Nat × PlayerStats)) (p? : Option Player)
    (f : PlayerStats → PlayerStats) : List (Nat × PlayerStats) :=
  match p? with
  | some p => modifyK l p.steamID f
  | none => l

/-- Killer bookkeeping: `Kills++`, headshot count, per-weapon count. -/
def killMod (weapon : Option Weapon) (isHeadshot : Bool) (r : PlayerStats) : PlayerStats :=
  { r with kills := r.kills + 1,
           headshots := if isHeadshot then r.headshots + 1 else r.headshots,
           weaponKills := match weapon with
             | some w => bumpK r.weaponKills w.name
             | none => r.weaponKills }

/-- Source line `vStats.Deaths++`. -/
def deathMod (r : PlayerStats) : PlayerStats := { r with deaths := r.deaths + 1 }

/-- Source line `aStats.Assists++`, plus `FlashAssists++` when flash-assisted. -/
def assistMod (assistedFlash : Bool) (r : PlayerStats) : PlayerStats :=
  { r with assists := r.assists + 1,
           flashAssists := if assistedFlash then r.flashAssists + 1 else r.flashAssists }

/-- Source line `kStats.EntryKills++`. -/
def entryKillMod (r : PlayerStats) : PlayerStats := { r with entryKills := r.entryKills + 1 }

/-- Source line `vStats.EntryDeaths++`. -/
def entryDeathMod (r : PlayerStats) : PlayerStats := { r with entryDeaths := r.entryDeaths + 1 }

/-- Source line `s.MultiKills[kills]++`. -/
def mkMod (n : Nat) (r : PlayerStats) : PlayerStats :=
  { r with multiKills := bumpK r.multiKills n }

/-- Source line `s.Damage += HealthDamage`, plus utility damage for nade weapons. -/
def dmgMod (hd : Nat) (w : Option Weapon) (r : PlayerStats) : PlayerStats :=
  { r with damage := r.damage + hd,
           utilityDamage := if isUtilityWeapon w then r.utilityDamage + hd
                            else r.utilityDamage }

/-- Source line `s.Flashed++`. -/
def flashMod (r : PlayerStats) : PlayerStats := { r with flashed := r.flashed + 1 }

/-- Source line `s.TeamFlashed++`. -/
def teamFlashMod (r : PlayerStats) : PlayerStats := { r with teamFlashed := r.teamFlashed + 1 }

/-- Source line `s.BombPlants++`. -/
def plantMod (r : PlayerStats) : PlayerStats := { r with bombPlants := r.bombPlants + 1 }

/-- Source line `s.BombDefuses++`. -/
def defuseMod (r : PlayerStats) : PlayerStats := { r with bombDefuses := r.bombDefuses + 1 }

/-- The `events.Kill` handler body (after its match-started gate).  The
three `getStats` calls run first (killer, victim, assister); then, when
the killer is non-nil: killer bookkeeping, the round-kill tally bump, the
entry-kill logic (guarded by `firstKillOccurred`, which the handler then
raises), the victim death, and the assister counters — in source order,
each through the shared map record. -/
def handleKill (st : ProcState) (killer victim assister : Option Player)
    (weapon : Option Weapon) (isHeadshot assistedFlash : Bool) : ProcState :=
  let s3 := ensureOpt (ensureOpt (ensureOpt st.stats killer) victim) assister
  match killer with
  | none =>
      { st with stats := modOpt (modOpt s3 victim deathMod) assister (assistMod assistedFlash) }
  | some k =>
      let s4 := modifyK s3 k.steamID (killMod weapon isHeadshot)
      let s5 := if st.firstKillOccurred then s4 else
        modOpt (modifyK s4 k.steamID entryKillMod) victim entryDeathMod
      { st with
          stats := modOpt (modOpt s5 victim deathMod) assister (assistMod assistedFlash),
          roundKills := bumpK st.roundKills k.steamID,
          firstKillOccurred := true }

/-- The multi-kill pass of the `events.RoundEnd` handler: iterate
`roundKills`; for each entry with a positive tally whose player is known,
bump that player's `MultiKills[kills]` bucket.  (Go map iteration order is
unspecified; the per-key updates commute, so list order is a faithful
deterministic choice.) -/
def roundEndFold : List (Nat × Nat) → List (Nat × PlayerStats) → List (Nat × PlayerStats)
  | [], s => s
  | (k, n) :: rest, s =>
      roundEndFold rest
        (if 0 < n then
          match lookupK s k with
          | some _ => modifyK s k (mkMod n)
          | none => s
         else s)

/-- The `events.RoundEnd` handler body (after its match-started gate):
count the round and process multi-kills.  `roundKills` is not cleared
here (only `RoundStart` clears it). -/
def handleRoundEnd (st : ProcState) : ProcState :=
  { st with totalRounds := st.totalRounds + 1,
            stats := roundEndFold st.roundKills st.stats }

/-- One dispatched event.  Every combat handler begins with
`if !p.GameState().IsMatchStarted() { return }`; the `RoundStart` handler
has no gate; the `RoundEnd` handler does have the gate. -/
def dispatch (st : ProcState) (started : Bool) (e : Event) : ProcState :=
  match e with
  | .roundStart => { st with roundKills := [], firstKillOccurred := false }
  | .roundEnd => if started then handleRoundEnd st else st
  | .kill k v a w hs af => if started then handleKill st k v a w hs af else st
  | .playerHurt attacker _victim hd w =>
      if started then
        match attacker with
        | none => st
        | some a =>
            { st with stats := modifyK (ensureStats st.stats a) a.steamID (dmgMod hd w) }
      else st
  | .playerFlashed attacker pl =>
      if started then
        match attacker, pl with
        | some a, some p =>
            if a.team ≠ p.team then
              { st with stats := modifyK (ensureStats st.stats a) a.steamID flashMod }
            else
              { st with stats := modifyK (ensureStats st.stats a) a.steamID teamFlashMod }
        | _, _ => st
      else st
  | .bombPlanted pl =>
      if started then
        match pl with
        | some p =>
            { st with stats := modifyK (ensureStats st.stats p) p.steamID plantMod }
        | none => st
      else st
  | .bombDefused pl =>
      if started then
        match pl with
        | some p =>
            { st with stats := modifyK (ensureStats st.stats p) p.steamID defuseMod }
        | none => st
      else st

/-- Run the event loop over the stream. -/
def runEvents (st : ProcState) : List (Bool × Event) → ProcState
  | [] => st
  | be :: rest => runEvents (dispatch st be.1 be.2) rest

/-- Record of player `id` in a stats map, all-zero if unknown. -/
def statOfL (l : List (Nat × PlayerStats)) (id : Nat) : PlayerStats :=
  (lookupK l id).getD emptyStats

/-- Record of player `id` in a state, all-zero if unknown. -/
def statOf (st : ProcState) (id : Nat) : PlayerStats := statOfL st.stats id

/-- Multi-kill bucket `b` of player `id` (zero default, like the Go map). -/
def multiKillsOf (st : ProcState) (id b : Nat) : Nat :=
  (lookupK (statOf st id).multiKills b).getD 0

/-! ### Finalization (derived metrics and rounding) -/

/-- Go `int(x)` on a `float64`: truncation toward zero. -/
def truncTowardZero (x : ℚ) : ℤ :=
  if 0 ≤ x then Int.floor x else Int.ceil x

/-- The derived-metric assignments of the finalization loop, before the
rounding lines: `HSPercent` (only when `Kills > 0`), `KD` (zero-death
case special-cased), `ADR` (only when `totalRounds > 0`).  Fields keep
their previous value when a guard fails, exactly as in the source. -/
def deriveRaw (totalRounds : Nat) (s : PlayerStats) : PlayerStats :=
  { s with
    hsPercent := if 0 < s.kills then ((s.headshots : ℚ) / (s.kills : ℚ)) * 100
                 else s.hsPercent,
    kd := if s.deaths = 0 then (s.kills : ℚ) else (s.kills : ℚ) / (s.deaths : ℚ),
    adr := if 0 < totalRounds then (s.damage : ℚ) / (totalRounds : ℚ) else s.adr }

/-- The rounding lines of the finalization loop:
`KD = float64(int(KD*100))/100`, `HSPercent = float64(int(HSPercent*10))/10`,
`ADR = float64(int(ADR*10))/10`. -/
def applyRounding (s : PlayerStats) : PlayerStats :=
  { s with kd := (truncTowardZero (s.kd * 100) : ℚ) / 100,
           hsPercent := (truncTowardZero (s.hsPercent * 10) : ℚ) / 10,
           adr := (truncTowardZero (s.adr * 10) : ℚ) / 10 }

/-- The whole per-player finalization body (derive, then round). -/
def finalizeStats (totalRounds : Nat) (s : PlayerStats) : PlayerStats :=
  applyRounding (deriveRaw totalRounds s)

/-! ### Result assembly and the `main` control flow -/

/-- Everything the parser collaborator supplies: the dispatched event
stream (each event tagged with the `IsMatchStarted` value at dispatch
time), whether `ParseToEnd` returned an error, the end-of-stream team
scores, the header map name, and the end-of-match participant snapshot
(player together with `participant.Score()`). -/
structure DemoInput where
  events : List (Bool × Event)
  parseError : Option String
  scoreT : Nat
  scoreCT : Nat
  mapName : String
  participants : List (Player × Int)

/-- Structure `MatchResult` of the source (the one output document).  An empty
`error` string models the omitted `error,omitempty` field. -/
structure MatchResult where
  scoreStr : String
  stats : List PlayerStats
  mapName : String
  scoreT : Nat
  scoreCT : Nat
  error : String
  deriving DecidableEq, Repr

/-- Model of `outputError`: the document emitted on any failure — only the error
field populated, every other field zero-valued. -/
def outputError (msg : String) : MatchResult :=
  { scoreStr := "", stats := [], mapName := "", scoreT := 0, scoreCT := 0,
    error := msg }

/-- Model of `strings.Title` (ASCII): upper-case every letter that begins a word,
i.e. whose predecessor is not a letter. -/
def titleCase (s : String) : String :=
  String.mk (s.toList.foldl
    (fun (acc : List Char × Bool) c =>
      (acc.1 ++ [if acc.2 then c else c.toUpper], c.isAlpha)) ([], false)).1

/-- Map-name cleanup: strip a `de_` prefix and title-case the rest. -/
def formatMapName (m : String) : String :=
  if m.startsWith "de_" then titleCase (m.drop 3) else m

/-- The end-of-match score snapshot loop: for each participant,
`getStats` (get-or-insert plus identity refresh) and then write
`participant.Score()` into the map record. -/
def applySnapshot (l : List (Nat × PlayerStats)) (parts : List (Player × Int)) :
    List (Nat × PlayerStats) :=
  match parts with
  | [] => l
  | pp :: rest =>
      applySnapshot (modifyK (ensureStats l pp.1) pp.1.steamID
        (fun r => { r with score := pp.2 })) rest

/-- Descending insertion by the `sort.Slice` comparator
`stats[i].Score > stats[j].Score`.  (Go's `sort.Slice` promises only
sortedness, not stability; a deterministic sorted stand-in.) -/
def insertByScoreDesc (x : PlayerStats) : List PlayerStats → List PlayerStats
  | [] => [x]
  | y :: ys => if y.score < x.score then x :: y :: ys else y :: insertByScoreDesc x ys

/-- Sort the output slice descending by score. -/
def sortByScoreDesc (l : List PlayerStats) : List PlayerStats :=
  l.foldr insertByScoreDesc []

/-- The control flow of `main` after argument handling: open the file
(`Except.error` = `os.Open` failure), run the event loop, check the
`ParseToEnd` error, then finalize and assemble the one output document.

Faithful to a decisive detail of the source: `statsList` is built from
**copies** (`append(statsList, *s)`) of the map records taken *before*
the participant score snapshot is written into the map, so the snapshot
scores never reach the output slice.  (Go map iteration order is
unspecified; the model iterates insertion order.) -/
def mainModel (openResult : Except String DemoInput) : MatchResult :=
  match openResult with
  | .error msg => outputError ("Error opening file: " ++ msg)
  | .ok d =>
      let st := runEvents initState d.events
      match d.parseError with
      | some msg => outputError ("Error parsing demo: " ++ msg)
      | none =>
          let scoreStr := "T " ++ toString d.scoreT ++ " - " ++ toString d.scoreCT ++ " CT"
          let mapName := formatMapName d.mapName
          let statsList := st.stats.map (fun kv => finalizeStats st.totalRounds kv.2)
          let _mapAfterSnapshot := applySnapshot st.stats d.participants
          { scoreStr := scoreStr,
            stats := sortByScoreDesc statsList,
            mapName := mapName,
            scoreT := d.scoreT,
            scoreCT := d.scoreCT,
            error := "" }

/-! ### Stream-level helpers used to state the claims -/

/-- Is this event a `Kill`? -/
def Event.isKill : Event → Bool
  | .kill _ _ _ _ _ _ => true
  | _ => false

/-- A `Kill` event dispatched while the match-started flag was true. -/
def gatedKill (be : Bool × Event) : Bool :=
  be.1 && be.2.isKill

/-- The first `Kill` event of the stream that passes the gate. -/
def firstGatedKill : List (Bool × Event) → Option (Bool × Event)
  | [] => none
  | be :: rest => if gatedKill be then some be else firstGatedKill rest

/-- The combat-affecting event kinds (everything except the round
boundaries). -/
def isCombatEvent : Event → Bool
  | .kill _ _ _ _ _ _ => true
  | .playerHurt _ _ _ _ => true
  | .playerFlashed _ _ => true
  | .bombPlanted _ => true
  | .bombDefused _ => true
  | _ => false

/-- Sum of the damage counters over all known players. -/
def sumDamage : List (Nat × PlayerStats) → Nat
  | [] => 0
  | kv :: rest => kv.2.damage + sumDamage rest

/-- The amount the `PlayerHurt` handler attributes for one dispatched
event: the full `HealthDamage`, to the attacker, when the gate is open
and the attacker is non-nil; nothing otherwise. -/
def hurtAmount : Bool × Event → Nat
  | (true, .playerHurt (some _) _ hd _) => hd
  | _ => 0

/-- Total damage the stream attributes under the engine's attribution
policy (gate open, attacker present — team and self damage included). -/
def attributedHurtSum (evs : List (Bool × Event)) : Nat :=
  (evs.map hurtAmount).sum

/-! ### Association-list lemmas -/

theorem lookupK_modifyK {κ α : Type} [DecidableEq κ]
    (l : List (κ × α)) (k : κ) (f : α → α) (j : κ) :
    lookupK (modifyK l k f) j =
      if j = k then (lookupK l k).map f else lookupK l j := by
  induction l with
  | nil => simp [lookupK, modifyK]
  | cons kv rest ih =>
      by_cases hk : kv.1 = k
      · by_cases hj : j = k
        · have hkj : kv.1 = j := hk.trans hj.symm
          simp [modifyK, lookupK, hk, hj, hkj]
        · have hkj : ¬ kv.1 = j := fun h => hj (h.symm.trans hk)
          have hkj2 : ¬ k = j := fun h => hj h.symm
          simp [modifyK, lookupK, hk, hj, hkj, hkj2]
      · by_cases hkj : kv.1 = j
        · have hj : ¬ j = k := fun h => hk (hkj.trans h)
          simp [modifyK, lookupK, hk, hj, hkj]
        · simp [modifyK, lookupK, hk, hkj, ih]

theorem lookupK_append_of_none {κ α : Type} [DecidableEq κ]
    {l1 : List (κ × α)} (l2 : List (κ × α)) {j : κ} (h : lookupK l1 j = none) :
    lookupK (l1 ++ l2) j = lookupK l2 j := by
  induction l1 with
  | nil => simp
  | cons kv rest ih =>
      by_cases hj : kv.1 = j
      · simp [lookupK, hj] at h
      · simp only [lookupK, hj, if_false] at h
        simp only [List.cons_append, lookupK, hj, if_false]
        exact ih h

theorem lookupK_append_of_some {κ α : Type} [DecidableEq κ]
    {l1 : List (κ × α)} (l2 : List (κ × α)) {j : κ} {v : α}
    (h : lookupK l1 j = some v) :
    lookupK (l1 ++ l2) j = some v := by
  induction l1 with
  | nil => simp [lookupK] at h
  | cons kv rest ih =>
      by_cases hj : kv.1 = j
      · simp only [lookupK, hj, if_true] at h
        simp only [List.cons_append, lookupK, hj, if_true]
        exact h
      · simp only [lookupK, hj, if_false] at h
        simp only [List.cons_append, lookupK, hj, if_false]
        exact ih h

/-- What `getStats` does to every lookup: the player's own entry is the
refreshed old record (or a refreshed fresh record), everything else is
untouched. -/
theorem lookupK_ensureStats (l : List (Nat × PlayerStats)) (p : Player) (j : Nat) :
    lookupK (ensureStats l p) j =
      if j = p.steamID then
        some (refreshIdent p ((lookupK l p.steamID).getD (PlayerStats.init p)))
      else lookupK l j := by
  unfold ensureStats
  cases hl : lookupK l p.steamID with
  | none =>
      simp only [hl]
      rw [lookupK_modifyK]
      by_cases hj : j = p.steamID
      · have h1 : lookupK (l ++ [(p.steamID, PlayerStats.init p)]) p.steamID
            = some (PlayerStats.init p) := by
          rw [lookupK_append_of_none _ hl]; simp [lookupK]
        simp [hj, h1]
      · simp only [hj, if_false]
        cases hlj : lookupK l j with
        | none =>
            rw [lookupK_append_of_none _ hlj]
            have h2 : ¬ p.steamID = j := fun h => hj h.symm
            simp [lookupK, h2, hlj]
        | some w => exact lookupK_append_of_some _ hlj
  | some v =>
      simp only [hl]
      rw [lookupK_modifyK]
      by_cases hj : j = p.steamID
      · simp [hj, hl]
      · simp [hj]

theorem lookupK_bumpK {κ : Type} [DecidableEq κ] (l : List (κ × Nat)) (k j : κ) :
    lookupK (bumpK l k) j =
      if j = k then some ((lookupK l k).getD 0 + 1) else lookupK l j := by
  unfold bumpK
  cases hl : lookupK l k with
  | none =>
      simp only [hl]
      by_cases hj : j = k
      · subst hj
        rw [lookupK_append_of_none _ hl]
        simp [lookupK]
      · simp only [hj, if_false]
        cases hlj : lookupK l j with
        | none =>
            rw [lookupK_append_of_none _ hlj]
            have h2 : ¬ k = j := fun h => hj h.symm
            simp [lookupK, h2, hlj]
        | some w => exact lookupK_append_of_some _ hlj
  | some v =>
      simp only [hl]
      rw [lookupK_modifyK]
      by_cases hj : j = k <;> simp [hj, hl]

/-- Reading `statOfL` through `modifyK`. -/
theorem statOfL_modifyK (l : List (Nat × PlayerStats)) (k : Nat)
    (f : PlayerStats → PlayerStats) (j : Nat) :
    statOfL (modifyK l k f) j =
      if j = k then ((lookupK l k).map f).getD emptyStats else statOfL l j := by
  unfold statOfL
  rw [lookupK_modifyK]
  by_cases hj : j = k <;> simp [hj]

/-- Reading `statOfL` through `modifyK` at the modified key when it is present. -/
theorem statOfL_modifyK_self {l : List (Nat × PlayerStats)} {k : Nat}
    {f : PlayerStats → PlayerStats} {v : PlayerStats} (h : lookupK l k = some v) :
    statOfL (modifyK l k f) k = f v := by
  rw [statOfL_modifyK]; simp [h]

/-- Reading `statOfL` through `modifyK` at any other key. -/
theorem statOfL_modifyK_other {l : List (Nat × PlayerStats)} {k : Nat}
    {f : PlayerStats → PlayerStats} {j : Nat} (h : j ≠ k) :
    statOfL (modifyK l k f) j = statOfL l j := by
  rw [statOfL_modifyK]; simp [h]

/-- Reading `statOfL` through `ensureStats`. -/
theorem statOfL_ensureStats (l : List (Nat × PlayerStats)) (p : Player) (j : Nat) :
    statOfL (ensureStats l p) j =
      if j = p.steamID then
        refreshIdent p ((lookupK l p.steamID).getD (PlayerStats.init p))
      else statOfL l j := by
  unfold statOfL
  rw [lookupK_ensureStats]
  by_cases hj : j = p.steamID <;> simp [hj]

/-- Fact: `ensureStats` keeps its own key present. -/
theorem lookupK_ensureStats_self (l : List (Nat × PlayerStats)) (p : Player) :
    lookupK (ensureStats l p) p.steamID =
      some (refreshIdent p ((lookupK l p.steamID).getD (PlayerStats.init p))) := by
  rw [lookupK_ensureStats]; simp

/-- Fact: `modifyK` preserves presence of every key. -/
theorem isSome_lookupK_modifyK {κ α : Type} [DecidableEq κ]
    (l : List (κ × α)) (k : κ) (f : α → α) (j : κ) :
    (lookupK (modifyK l k f) j).isSome = (lookupK l j).isSome := by
  rw [lookupK_modifyK]
  by_cases hj : j = k
  · subst hj; cases lookupK l j <;> simp
  · simp [hj]

/-! ### Pointwise projection preservation through the map operations -/

/-- A record projection untouched by a `modifyK` transformer is untouched
at every player. -/
theorem proj_modifyK {α : Type} (g : PlayerStats → α) {l : List (Nat × PlayerStats)}
    {k : Nat} (f : PlayerStats → PlayerStats) (hf : ∀ r, g (f r) = g r) (id : Nat) :
    g (statOfL (modifyK l k f) id) = g (statOfL l id) := by
  rw [statOfL_modifyK]
  by_cases hid : id = k
  · subst hid
    cases hl : lookupK l id with
    | none => simp [statOfL, hl]
    | some v => simp [statOfL, hl, hf]
  · simp [hid]

/-- A record projection untouched by the identity refresh and zero on
fresh records is untouched at every player by `getStats`. -/
theorem proj_ensureStats {α : Type} (g : PlayerStats → α) {l : List (Nat × PlayerStats)}
    {p : Player} (hrefresh : ∀ q r, g (refreshIdent q r) = g r)
    (hinit : ∀ q, g (PlayerStats.init q) = g emptyStats) (id : Nat) :
    g (statOfL (ensureStats l p) id) = g (statOfL l id) := by
  rw [statOfL_ensureStats]
  by_cases hid : id = p.steamID
  · subst hid
    cases hl : lookupK l p.steamID with
    | none => simp [statOfL, hl, hrefresh, hinit]
    | some v => simp [statOfL, hl, hrefresh]
  · simp [hid]

/-- A record projection untouched by multi-kill bumps is untouched at
every player by the round-end fold. -/
theorem proj_roundEndFold {α : Type} (g : PlayerStats → α)
    (hmk : ∀ n r, g { r with multiKills := bumpK r.multiKills n } = g r) :
    ∀ (rk : List (Nat × Nat)) (l : List (Nat × PlayerStats)) (id : Nat),
      g (statOfL (roundEndFold rk l) id) = g (statOfL l id) := by
  intro rk
  induction rk with
  | nil => intro l id; rfl
  | cons kn rest ih =>
      intro l id
      obtain ⟨k, n⟩ := kn
      show g (statOfL (roundEndFold rest _) id) = _
      rw [ih]
      by_cases hn : 0 < n
      · simp only [hn, if_true]
        cases hl : lookupK l k with
        | none => rfl
        | some v => exact proj_modifyK g (mkMod n) (hmk n) id
      · simp [hn]

/-! ### Entry-kill bookkeeping (claim C1) -/

/-- The pair of entry counters of one player's record. -/
def entryPair (r : PlayerStats) : Nat × Nat := (r.entryKills, r.entryDeaths)

theorem proj_ensureOpt {α : Type} (g : PlayerStats → α) {l : List (Nat × PlayerStats)}
    (p? : Option Player) (hrefresh : ∀ q r, g (refreshIdent q r) = g r)
    (hinit : ∀ q, g (PlayerStats.init q) = g emptyStats) (id : Nat) :
    g (statOfL (ensureOpt l p?) id) = g (statOfL l id) := by
  cases p? with
  | none => rfl
  | some p => exact proj_ensureStats g hrefresh hinit id

theorem proj_modOpt {α : Type} (g : PlayerStats → α) {l : List (Nat × PlayerStats)}
    (p? : Option Player) (f : PlayerStats → PlayerStats)
    (hf : ∀ r, g (f r) = g r) (id : Nat) :
    g (statOfL (modOpt l p? f) id) = g (statOfL l id) := by
  cases p? with
  | none => rfl
  | some p => exact proj_modifyK g f hf id

/-- A dispatch step that is not a gated `Kill` arriving with the entry
flag clear changes no player's entry counters. -/
theorem entry_const_dispatch (st : ProcState) (b : Bool) (e : Event)
    (hcond : st.firstKillOccurred = true ∨ gatedKill (b, e) = false) (id : Nat) :
    entryPair (statOfL (dispatch st b e).stats id) = entryPair (statOfL st.stats id) := by
  cases e with
  | roundStart => rfl
  | roundEnd =>
      cases b with
      | false => rfl
      | true =>
          show entryPair (statOfL (roundEndFold st.roundKills st.stats) id) = _
          exact proj_roundEndFold entryPair (fun n r => rfl) st.roundKills st.stats id
  | kill k v a w hs af =>
      cases b with
      | false => rfl
      | true =>
          have hflag : st.firstKillOccurred = true := by
            rcases hcond with h | h
            · exact h
            · simp [gatedKill, Event.isKill] at h
          cases k with
          | none =>
              show entryPair (statOfL (modOpt (modOpt
                (ensureOpt (ensureOpt (ensureOpt st.stats none) v) a) v deathMod)
                a (assistMod af)) id) = _
              rw [proj_modOpt entryPair a (assistMod af) (fun r => rfl),
                  proj_modOpt entryPair v deathMod (fun r => rfl),
                  proj_ensureOpt entryPair a (fun q r => rfl) (fun q => rfl),
                  proj_ensureOpt entryPair v (fun q r => rfl) (fun q => rfl)]
              rfl
          | some kp =>
              show entryPair (statOfL (handleKill st (some kp) v a w hs af).stats id) = _
              unfold handleKill
              rw [hflag]
              simp only [if_true]
              rw [proj_modOpt entryPair a (assistMod af) (fun r => rfl),
                  proj_modOpt entryPair v deathMod (fun r => rfl),
                  proj_modifyK entryPair (killMod w hs) (fun r => rfl),
                  proj_ensureOpt entryPair a (fun q r => rfl) (fun q => rfl),
                  proj_ensureOpt entryPair v (fun q r => rfl) (fun q => rfl),
                  proj_ensureOpt entryPair (some kp) (fun q r => rfl) (fun q => rfl)]
  | playerHurt att v hd w =>
      cases b with
      | false => rfl
      | true =>
          cases att with
          | none => rfl
          | some ap =>
              show entryPair (statOfL (modifyK (ensureStats st.stats ap) ap.steamID
                (dmgMod hd w)) id) = _
              rw [proj_modifyK entryPair (dmgMod hd w) (fun r => rfl),
                  proj_ensureStats entryPair (fun q r => rfl) (fun q => rfl)]
  | playerFlashed att pl =>
      cases b with
      | false => rfl
      | true =>
          cases att with
          | none => rfl
          | some ap =>
              cases pl with
              | none => rfl
              | some pp =>
                  by_cases ht : ap.team ≠ pp.team
                  · have hred : (dispatch st true (.playerFlashed (some ap) (some pp))).stats
                        = modifyK (ensureStats st.stats ap) ap.steamID flashMod := by
                      simp [dispatch, ht]
                    rw [hred, proj_modifyK entryPair flashMod (fun r => rfl),
                        proj_ensureStats entryPair (fun q r => rfl) (fun q => rfl)]
                  · have hred : (dispatch st true (.playerFlashed (some ap) (some pp))).stats
                        = modifyK (ensureStats st.stats ap) ap.steamID teamFlashMod := by
                      simp [dispatch, ht]
                    rw [hred, proj_modifyK entryPair teamFlashMod (fun r => rfl),
                        proj_ensureStats entryPair (fun q r => rfl) (fun q => rfl)]
  | bombPlanted pl =>
      cases b with
      | false => rfl
      | true =>
          cases pl with
          | none => rfl
          | some pp =>
              show entryPair (statOfL (modifyK (ensureStats st.stats pp) pp.steamID
                plantMod) id) = _
              rw [proj_modifyK entryPair plantMod (fun r => rfl),
                  proj_ensureStats entryPair (fun q r => rfl) (fun q => rfl)]
  | bombDefused pl =>
      cases b with
      | false => rfl
      | true =>
          cases pl with
          | none => rfl
          | some pp =>
              show entryPair (statOfL (modifyK (ensureStats st.stats pp) pp.steamID
                defuseMod) id) = _
              rw [proj_modifyK entryPair defuseMod (fun r => rfl),
                  proj_ensureStats entryPair (fun q r => rfl) (fun q => rfl)]

/-- The entry flag survives any dispatch step other than `RoundStart`
whenever it is already raised, or the step is not a gated kill. -/
theorem flag_const_dispatch (st : ProcState) (b : Bool) (e : Event)
    (hcond : st.firstKillOccurred = true ∨ gatedKill (b, e) = false)
    (hne : e ≠ Event.roundStart) :
    (dispatch st b e).firstKillOccurred = st.firstKillOccurred := by
  cases e with
  | roundStart => exact absurd rfl hne
  | roundEnd => cases b <;> rfl
  | kill k v a w hs af =>
      cases b with
      | false => rfl
      | true =>
          have hflag : st.firstKillOccurred = true := by
            rcases hcond with h | h
            · exact h
            · simp [gatedKill, Event.isKill] at h
          cases k with
          | none => rfl
          | some kp => simp [dispatch, handleKill, hflag]
  | playerHurt att v hd w =>
      cases b with
      | false => rfl
      | true => cases att <;> rfl
  | playerFlashed att pl =>
      cases b with
      | false => rfl
      | true =>
          cases att with
          | none => rfl
          | some ap =>
              cases pl with
              | none => rfl
              | some pp => by_cases ht : ap.team ≠ pp.team <;> simp [dispatch, ht]
  | bombPlanted pl =>
      cases b with
      | false => rfl
      | true => cases pl <;> rfl
  | bombDefused pl =>
      cases b with
      | false => rfl
      | true => cases pl <;> rfl

/-- Reading a modified entry when the key is present. -/
theorem statOfL_modifyK_self_present {l : List (Nat × PlayerStats)} {k : Nat}
    (f : PlayerStats → PlayerStats) (h : (lookupK l k).isSome = true) :
    statOfL (modifyK l k f) k = f (statOfL l k) := by
  obtain ⟨v, hv⟩ := Option.isSome_iff_exists.mp h
  rw [statOfL_modifyK]
  simp [hv, statOfL]

/-- Fact: `getStats` leaves its own key present. -/
theorem isSome_ensureStats_self (l : List (Nat × PlayerStats)) (p : Player) :
    (lookupK (ensureStats l p) p.steamID).isSome = true := by
  rw [lookupK_ensureStats_self]; rfl

/-- Fact: `getStats` keeps every present key present. -/
theorem isSome_ensureStats_mono (l : List (Nat × PlayerStats)) (p : Player) (j : Nat)
    (h : (lookupK l j).isSome = true) :
    (lookupK (ensureStats l p) j).isSome = true := by
  rw [lookupK_ensureStats]
  by_cases hj : j = p.steamID
  · simp [hj]
  · simp only [hj, if_false]; exact h

/-- Fact: `ensureOpt` keeps every present key present. -/
theorem isSome_ensureOpt_mono (l : List (Nat × PlayerStats)) (p? : Option Player) (j : Nat)
    (h : (lookupK l j).isSome = true) :
    (lookupK (ensureOpt l p?) j).isSome = true := by
  cases p? with
  | none => exact h
  | some p => exact isSome_ensureStats_mono l p j h

theorem ensureOpt_some (l : List (Nat × PlayerStats)) (p : Player) :
    ensureOpt l (some p) = ensureStats l p := rfl

theorem modOpt_some (l : List (Nat × PlayerStats)) (p : Player)
    (f : PlayerStats → PlayerStats) : modOpt l (some p) f = modifyK l p.steamID f := rfl

/-- The whole stats transformation of a gated kill with non-nil killer
and victim arriving while the entry flag is clear, written as the chain
the handler performs; it adds exactly one entry kill at the killer and
one entry death at the victim, at every player identity. -/
theorem entryPair_killchain (base : List (Nat × PlayerStats)) (K V : Player)
    (a : Option Player) (w : Option Weapon) (hs af : Bool) (id : Nat) :
    entryPair (statOfL (modOpt (modOpt (modOpt (modifyK (modifyK
        (ensureOpt (ensureOpt (ensureOpt base (some K)) (some V)) a)
        K.steamID (killMod w hs)) K.steamID entryKillMod) (some V) entryDeathMod)
        (some V) deathMod) a (assistMod af)) id)
      = ((statOfL base id).entryKills + (if id = K.steamID then 1 else 0),
         (statOfL base id).entryDeaths + (if id = V.steamID then 1 else 0)) := by
  simp only [ensureOpt_some, modOpt_some]
  rw [proj_modOpt entryPair a (assistMod af) (fun r => rfl),
      proj_modifyK entryPair deathMod (fun r => rfl)]
  have hpres2 : (lookupK (ensureOpt (ensureStats (ensureStats base K) V) a) V.steamID).isSome
      = true :=
    isSome_ensureOpt_mono _ a _ (isSome_ensureStats_self (ensureStats base K) V)
  have hpresK : (lookupK (ensureOpt (ensureStats (ensureStats base K) V) a) K.steamID).isSome
      = true :=
    isSome_ensureOpt_mono _ a _
      (isSome_ensureStats_mono _ V _ (isSome_ensureStats_self base K))
  have hpres4K : (lookupK (modifyK (ensureOpt (ensureStats (ensureStats base K) V) a)
      K.steamID (killMod w hs)) K.steamID).isSome = true := by
    rw [isSome_lookupK_modifyK]; exact hpresK
  have hpres5aV : (lookupK (modifyK (modifyK (ensureOpt (ensureStats (ensureStats base K) V) a)
      K.steamID (killMod w hs)) K.steamID entryKillMod) V.steamID).isSome = true := by
    rw [isSome_lookupK_modifyK, isSome_lookupK_modifyK]
    exact hpres2
  have hbase : ∀ j, entryPair (statOfL (modifyK (ensureOpt (ensureStats (ensureStats base K) V) a)
      K.steamID (killMod w hs)) j) = entryPair (statOfL base j) := by
    intro j
    rw [proj_modifyK entryPair (killMod w hs) (fun r => rfl),
        proj_ensureOpt entryPair a (fun q r => rfl) (fun q => rfl),
        proj_ensureStats entryPair (fun q r => rfl) (fun q => rfl),
        proj_ensureStats entryPair (fun q r => rfl) (fun q => rfl)]
  have hb1 : ∀ j, (statOfL (modifyK (ensureOpt (ensureStats (ensureStats base K) V) a)
      K.steamID (killMod w hs)) j).entryKills = (statOfL base j).entryKills :=
    fun j => congrArg Prod.fst (hbase j)
  have hb2 : ∀ j, (statOfL (modifyK (ensureOpt (ensureStats (ensureStats base K) V) a)
      K.steamID (killMod w hs)) j).entryDeaths = (statOfL base j).entryDeaths :=
    fun j => congrArg Prod.snd (hbase j)
  by_cases hidV : id = V.steamID
  · rw [hidV, statOfL_modifyK_self_present entryDeathMod hpres5aV]
    by_cases hVK : V.steamID = K.steamID
    · rw [hVK, statOfL_modifyK_self_present entryKillMod hpres4K]
      simp [entryPair, entryKillMod, entryDeathMod, hb1, hb2]
    · rw [statOfL_modifyK_other hVK]
      simp [entryPair, entryDeathMod, hb1, hb2, hVK]
  · rw [statOfL_modifyK_other hidV]
    by_cases hidK : id = K.steamID
    · have hKV : ¬ K.steamID = V.steamID := fun h => hidV (hidK.trans h)
      rw [hidK, statOfL_modifyK_self_present entryKillMod hpres4K]
      simp [entryPair, entryKillMod, hb1, hb2, hKV]
    · rw [statOfL_modifyK_other hidK]
      simp [entryPair, hb1, hb2, hidK, hidV]

/-- The step effect of the round's first gated kill (non-nil killer and
victim, entry flag clear): the flag is raised and exactly one entry
kill/death pair is credited — to that kill's killer and victim. -/
theorem entry_first_kill_step (st : ProcState) (hflag : st.firstKillOccurred = false)
    (K V : Player) (a : Option Player) (w : Option Weapon) (hs af : Bool) :
    (dispatch st true (.kill (some K) (some V) a w hs af)).firstKillOccurred = true ∧
    ∀ id, entryPair (statOf (dispatch st true (.kill (some K) (some V) a w hs af)) id)
        = ((statOf st id).entryKills + (if id = K.steamID then 1 else 0),
           (statOf st id).entryDeaths + (if id = V.steamID then 1 else 0)) := by
  constructor
  · rfl
  · intro id
    have hred : (dispatch st true (.kill (some K) (some V) a w hs af)).stats
        = modOpt (modOpt (modOpt (modifyK (modifyK
            (ensureOpt (ensureOpt (ensureOpt st.stats (some K)) (some V)) a)
            K.steamID (killMod w hs)) K.steamID entryKillMod) (some V) entryDeathMod)
            (some V) deathMod) a (assistMod af) := by
      simp [dispatch, handleKill, hflag]
    show entryPair (statOfL (dispatch st true (.kill (some K) (some V) a w hs af)).stats id) = _
    rw [hred]
    exact entryPair_killchain st.stats K V a w hs af id

/-- Once the entry flag is raised, entry counters stay frozen for the
rest of the round (no `RoundStart` in the remaining events). -/
theorem entry_const_run (evs : List (Bool × Event)) (st : ProcState)
    (hflag : st.firstKillOccurred = true)
    (hnoRS : ∀ be ∈ evs, be.2 ≠ Event.roundStart) (id : Nat) :
    entryPair (statOf (runEvents st evs) id) = entryPair (statOf st id) := by
  induction evs generalizing st with
  | nil => rfl
  | cons be rest ih =>
      have hne : be.2 ≠ Event.roundStart := hnoRS be (List.mem_cons_self be rest)
      have h1 : (dispatch st be.1 be.2).firstKillOccurred = true :=
        (flag_const_dispatch st be.1 be.2 (Or.inl hflag) hne).trans hflag
      have h2 : ∀ be2 ∈ rest, be2.2 ≠ Event.roundStart :=
        fun be2 hm => hnoRS be2 (List.mem_cons_of_mem be hm)
      calc entryPair (statOf (runEvents st (be :: rest)) id)
          = entryPair (statOf (dispatch st be.1 be.2) id) :=
            ih (dispatch st be.1 be.2) h1 h2
        _ = entryPair (statOf st id) :=
            entry_const_dispatch st be.1 be.2 (Or.inl hflag) id

/-- Claim C1.  Over any round segment (no `RoundStart` inside, entry flag
clear at its start — which `RoundStart` and the initial state guarantee),
if the segment contains at least one `Kill` that passes the match-started
gate, and the first such kill has non-nil killer `K` and victim `V` (the
specified event shape declares both non-nullable), then exactly one
player's `entryKills` rises by exactly one (namely `K`'s), exactly one
player's `entryDeaths` rises by exactly one (namely `V`'s), and no other
entry counter of any player changes — so at most one entry pair per
round, credited to the first gated kill in arrival order. -/
theorem claim_C1_entry_pair (evs : List (Bool × Event)) (st : ProcState)
    (K V : Player) (a : Option Player) (w : Option Weapon) (hs af : Bool)
    (hflag : st.firstKillOccurred = false)
    (hnoRS : ∀ be ∈ evs, be.2 ≠ Event.roundStart)
    (hfirst : firstGatedKill evs = some (true, .kill (some K) (some V) a w hs af)) :
    (∀ id, (statOf (runEvents st evs) id).entryKills
        = (statOf st id).entryKills + (if id = K.steamID then 1 else 0)) ∧
    (∀ id, (statOf (runEvents st evs) id).entryDeaths
        = (statOf st id).entryDeaths + (if id = V.steamID then 1 else 0)) := by
  induction evs generalizing st with
  | nil => simp [firstGatedKill] at hfirst
  | cons be rest ih =>
      have hrest : ∀ be2 ∈ rest, be2.2 ≠ Event.roundStart :=
        fun be2 hm => hnoRS be2 (List.mem_cons_of_mem be hm)
      by_cases hg : gatedKill be = true
      · have hbe : be = (true, Event.kill (some K) (some V) a w hs af) := by
          have hh : firstGatedKill (be :: rest) = some be := by
            simp [firstGatedKill, hg]
          rw [hh] at hfirst
          exact Option.some.inj hfirst
        subst hbe
        obtain ⟨hflag2, hstep⟩ := entry_first_kill_step st hflag K V a w hs af
        constructor
        · intro id
          exact congrArg Prod.fst
            ((entry_const_run rest _ hflag2 hrest id).trans (hstep id))
        · intro id
          exact congrArg Prod.snd
            ((entry_const_run rest _ hflag2 hrest id).trans (hstep id))
      · have hgf : gatedKill be = false := by simpa using hg
        have hfirst2 : firstGatedKill rest
            = some (true, Event.kill (some K) (some V) a w hs af) := by
          have hh : firstGatedKill (be :: rest) = firstGatedKill rest := by
            simp [firstGatedKill, hgf]
          rw [hh] at hfirst
          exact hfirst
        have hne : be.2 ≠ Event.roundStart := hnoRS be (List.mem_cons_self be rest)
        have hflag2 : (dispatch st be.1 be.2).firstKillOccurred = false :=
          (flag_const_dispatch st be.1 be.2 (Or.inr hgf) hne).trans hflag
        have hih := ih (dispatch st be.1 be.2) hflag2 hrest hfirst2
        constructor
        · intro id
          have hc : (statOf (dispatch st be.1 be.2) id).entryKills
              = (statOf st id).entryKills :=
            congrArg Prod.fst (entry_const_dispatch st be.1 be.2 (Or.inr hgf) id)
          calc (statOf (runEvents st (be :: rest)) id).entryKills
              = (statOf (dispatch st be.1 be.2) id).entryKills
                + (if id = K.steamID then 1 else 0) := hih.1 id
            _ = (statOf st id).entryKills + (if id = K.steamID then 1 else 0) := by
                rw [hc]
        · intro id
          have hc : (statOf (dispatch st be.1 be.2) id).entryDeaths
              = (statOf st id).entryDeaths :=
            congrArg Prod.snd (entry_const_dispatch st be.1 be.2 (Or.inr hgf) id)
          calc (statOf (runEvents st (be :: rest)) id).entryDeaths
              = (statOf (dispatch st be.1 be.2) id).entryDeaths
                + (if id = V.steamID then 1 else 0) := hih.2 id
            _ = (statOf st id).entryDeaths + (if id = V.steamID then 1 else 0) := by
                rw [hc]

/-! ### Concrete inputs used by witnesses and counterexamples -/

/-- Concrete player "A" on team 2. -/
def wP1 : Player := { steamID := 1, name := "A", team := 2 }

/-- Concrete player "B" on team 3. -/
def wP2 : Player := { steamID := 2, name := "B", team := 3 }

/-- A molotov, for utility-damage cases. -/
def wMolly : Weapon := { type := EquipmentType.molotov, name := "Molotov" }

/-- Witness for C1: a one-kill round segment from the initial state;
the killer's `entryKills` and the victim's `entryDeaths` each rise by
exactly one. -/
theorem claim_C1_entry_pair_witness :
    ((statOf (runEvents initState
        [(true, Event.kill (some wP1) (some wP2) none none false false)]) 1).entryKills
      = (statOf initState 1).entryKills + (if 1 = wP1.steamID then 1 else 0)) ∧
    ((statOf (runEvents initState
        [(true, Event.kill (some wP1) (some wP2) none none false false)]) 2).entryDeaths
      = (statOf initState 2).entryDeaths + (if 2 = wP2.steamID then 1 else 0)) :=
  ⟨(claim_C1_entry_pair
      [(true, Event.kill (some wP1) (some wP2) none none false false)]
      initState wP1 wP2 none none false false rfl (by decide) rfl).1 1,
   (claim_C1_entry_pair
      [(true, Event.kill (some wP1) (some wP2) none none false false)]
      initState wP1 wP2 none none false false rfl (by decide) rfl).2 2⟩

/-- Stream refuting claim C5: one gated kill, then a `RoundEnd` arriving
while the match-started flag is false. -/
def exC5 : List (Bool × Event) :=
  [(true, Event.kill (some wP1) (some wP2) none none false false),
   (false, Event.roundEnd)]

/-- Counterexample to claim C5 as stated: the source gates `RoundEnd`
behind `IsMatchStarted`, so an ungated `RoundEnd` performs neither the
round count nor the multi-kill bucketing — `totalRounds` stays 0 and
player 1's one-kill bucket stays empty, though the claim requires
`totalRounds = 1` and bucket 1 incremented. -/
theorem claim_C5_counterexample :
    (runEvents initState exC5).totalRounds = 0 ∧
    multiKillsOf (runEvents initState exC5) 1 1 = 0 := by
  constructor <;> rfl

/-- Claim C5 (amended): `RoundStart` is processed with full effect
regardless of the match-started flag, but `RoundEnd` is gated — when the
flag is false it is dropped entirely (no round count, no multi-kill
bucketing, no state change at all). -/
theorem claim_C5_amended_boundary_gating (st : ProcState) (b : Bool) :
    dispatch st b Event.roundStart
      = { st with roundKills := [], firstKillOccurred := false } ∧
    dispatch st false Event.roundEnd = st :=
  ⟨rfl, rfl⟩

/-- Claim C6: every combat-affecting event (`Kill`, `PlayerHurt`,
`PlayerFlashed`, `BombPlanted`, `BombDefused`) dispatched while the
match-started flag is false leaves the whole state — in particular every
player stat record — unchanged. -/
theorem claim_C6_warmup_exclusion (st : ProcState) (e : Event)
    (h : isCombatEvent e = true) : dispatch st false e = st := by
  cases e with
  | roundStart => simp [isCombatEvent] at h
  | roundEnd => simp [isCombatEvent] at h
  | kill k v a w hs af => rfl
  | playerHurt att v hd w => rfl
  | playerFlashed att pl => rfl
  | bombPlanted pl => rfl
  | bombDefused pl => rfl

/-- Witness for C6: an ungated `PlayerHurt` changes nothing. -/
theorem claim_C6_witness :
    dispatch initState false (Event.playerHurt (some wP1) (some wP2) 37 (some wMolly))
      = initState :=
  claim_C6_warmup_exclusion initState
    (Event.playerHurt (some wP1) (some wP2) 37 (some wMolly)) rfl

/-- Claim C10: for a gated `PlayerHurt`, a nil attacker changes nothing;
a non-nil attacker is credited the full health damage unconditionally —
no team or self-damage check, the victim argument (even the attacker
themselves or a teammate) plays no role — with the same amount added to
utility damage exactly when the weapon is a molotov, incendiary or HE
grenade; no other player's record changes. -/
theorem claim_C10_hurt_attribution (st : ProcState) (a : Player) (v : Option Player)
    (hd : Nat) (w : Option Weapon) :
    dispatch st true (Event.playerHurt none v hd w) = st ∧
    ((statOf (dispatch st true (Event.playerHurt (some a) v hd w)) a.steamID).damage
      = (statOf st a.steamID).damage + hd) ∧
    ((statOf (dispatch st true (Event.playerHurt (some a) v hd w)) a.steamID).utilityDamage
      = (statOf st a.steamID).utilityDamage + (if isUtilityWeapon w then hd else 0)) ∧
    ∀ id, id ≠ a.steamID →
      statOf (dispatch st true (Event.playerHurt (some a) v hd w)) id = statOf st id := by
  refine ⟨rfl, ?_, ?_, ?_⟩
  · show (statOfL (modifyK (ensureStats st.stats a) a.steamID (dmgMod hd w)) a.steamID).damage
        = _
    rw [statOfL_modifyK_self_present (dmgMod hd w) (isSome_ensureStats_self st.stats a)]
    have hdam : (statOfL (ensureStats st.stats a) a.steamID).damage
        = (statOfL st.stats a.steamID).damage :=
      proj_ensureStats (fun r => r.damage) (fun q r => rfl) (fun q => rfl) a.steamID
    show (statOfL (ensureStats st.stats a) a.steamID).damage + hd = _
    rw [hdam]
    rfl
  · show (statOfL (modifyK (ensureStats st.stats a) a.steamID (dmgMod hd w))
        a.steamID).utilityDamage = _
    rw [statOfL_modifyK_self_present (dmgMod hd w) (isSome_ensureStats_self st.stats a)]
    have hut : (statOfL (ensureStats st.stats a) a.steamID).utilityDamage
        = (statOfL st.stats a.steamID).utilityDamage :=
      proj_ensureStats (fun r => r.utilityDamage) (fun q r => rfl) (fun q => rfl) a.steamID
    by_cases hw : isUtilityWeapon w = true
    · show (if isUtilityWeapon w then
          (statOfL (ensureStats st.stats a) a.steamID).utilityDamage + hd
        else (statOfL (ensureStats st.stats a) a.steamID).utilityDamage) = _
      rw [hut]
      simp [hw, statOf]
    · show (if isUtilityWeapon w then
          (statOfL (ensureStats st.stats a) a.steamID).utilityDamage + hd
        else (statOfL (ensureStats st.stats a) a.steamID).utilityDamage) = _
      rw [hut]
      simp [hw, statOf]
  · intro id hid
    show statOfL (modifyK (ensureStats st.stats a) a.steamID (dmgMod hd w)) id
        = statOfL st.stats id
    rw [statOfL_modifyK_other hid, statOfL_ensureStats]
    simp [hid]

/-- Witness for C10, with self-damage (attacker hurts themselves with a
molotov): the full 37 damage and utility damage are credited to the
attacker, and an uninvolved player's record is untouched. -/
theorem claim_C10_witness :
    (dispatch initState true (Event.playerHurt none (some wP2) 37 (some wMolly))
        = initState) ∧
    ((statOf (dispatch initState true
        (Event.playerHurt (some wP1) (some wP1) 37 (some wMolly))) wP1.steamID).damage
      = (statOf initState wP1.steamID).damage + 37) ∧
    ((statOf (dispatch initState true
        (Event.playerHurt (some wP1) (some wP1) 37 (some wMolly))) wP1.steamID).utilityDamage
      = (statOf initState wP1.steamID).utilityDamage
        + (if isUtilityWeapon (some wMolly) then 37 else 0)) ∧
    statOf (dispatch initState true
        (Event.playerHurt (some wP1) (some wP1) 37 (some wMolly))) 2 = statOf initState 2 :=
  ⟨(claim_C10_hurt_attribution initState wP1 (some wP1) 37 (some wMolly)).1,
   (claim_C10_hurt_attribution initState wP1 (some wP1) 37 (some wMolly)).2.1,
   (claim_C10_hurt_attribution initState wP1 (some wP1) 37 (some wMolly)).2.2.1,
   (claim_C10_hurt_attribution initState wP1 (some wP1) 37 (some wMolly)).2.2.2 2
     (by decide)⟩

/-! ### Error handling and result assembly (claims C7, C8) -/

/-- Claim C7: on an open failure or a `ParseToEnd` error the engine emits
exactly the error document — error field populated, every other field
zero-valued/omitted — never partially accumulated statistics.  (The model
returns exactly one `MatchResult` on every input by construction.) -/
theorem claim_C7_error_document (o : Except String DemoInput) :
    (∀ msg, o = Except.error msg →
      mainModel o = outputError ("Error opening file: " ++ msg)) ∧
    (∀ d msg, o = Except.ok d → d.parseError = some msg →
      mainModel o = outputError ("Error parsing demo: " ++ msg)) := by
  constructor
  · intro msg h
    subst h
    rfl
  · intro d msg h hp
    subst h
    simp only [mainModel, hp]

/-- A decode failure part-way through a stream that already accumulated
a kill. -/
def exC7 : DemoInput :=
  { events := [(true, Event.kill (some wP1) (some wP2) none none false false)],
    parseError := some "unexpected end of demo",
    scoreT := 3, scoreCT := 2, mapName := "de_inferno",
    participants := [(wP1, 7)] }

/-- Witness for C7: both failure classes produce the bare error document. -/
theorem claim_C7_witness :
    mainModel (Except.error "no such file")
      = outputError ("Error opening file: " ++ "no such file") ∧
    mainModel (Except.ok exC7)
      = outputError ("Error parsing demo: " ++ "unexpected end of demo") :=
  ⟨(claim_C7_error_document (Except.error "no such file")).1 "no such file" rfl,
   (claim_C7_error_document (Except.ok exC7)).2 exC7 "unexpected end of demo" rfl rfl⟩

/-- Failing input for claim C8: one gated bomb plant by player 1, and an
end-of-match snapshot assigning player 1 the score 13. -/
def exC8 : DemoInput :=
  { events := [(true, Event.bombPlanted (some wP1))],
    parseError := none,
    scoreT := 13, scoreCT := 8, mapName := "de_dust2",
    participants := [(wP1, 13)] }

/-- Claim C8 exhibits a code bug: the source builds `statsList` from
copies (`append(statsList, *s)`) of the map records *before* the
participant score snapshot is written into the map, so the snapshot never
reaches the output — the emitted document reports score 0 for player 1
even though the post-snapshot map record holds 13, and the sort therefore
compares all-zero scores. -/
theorem claim_C8_score_snapshot_lost :
    ((mainModel (Except.ok exC8)).stats.map (fun r => r.score) = [0]) ∧
    (statOfL (applySnapshot (runEvents initState exC8.events).stats
        exC8.participants) 1).score = 13 := by
  constructor <;> rfl

/-! ### Finalization (claims C3, C4) -/

/-- The accumulation phase never writes the derived fields. -/
def rawPair (r : PlayerStats) : ℚ × ℚ := (r.hsPercent, r.adr)

theorem rawPair_const_dispatch (st : ProcState) (b : Bool) (e : Event) (id : Nat) :
    rawPair (statOf (dispatch st b e) id) = rawPair (statOf st id) := by
  cases e with
  | roundStart => rfl
  | roundEnd =>
      cases b with
      | false => rfl
      | true => exact proj_roundEndFold rawPair (fun n r => rfl) st.roundKills st.stats id
  | kill k v a w hs af =>
      cases b with
      | false => rfl
      | true =>
          cases k with
          | none =>
              show rawPair (statOfL (modOpt (modOpt
                (ensureOpt (ensureOpt (ensureOpt st.stats none) v) a) v deathMod)
                a (assistMod af)) id) = _
              rw [proj_modOpt rawPair a (assistMod af) (fun r => rfl),
                  proj_modOpt rawPair v deathMod (fun r => rfl),
                  proj_ensureOpt rawPair a (fun q r => rfl) (fun q => rfl),
                  proj_ensureOpt rawPair v (fun q r => rfl) (fun q => rfl)]
              rfl
          | some kp =>
              cases hb : st.firstKillOccurred with
              | true =>
                  have hred : (dispatch st true (.kill (some kp) v a w hs af)).stats
                      = modOpt (modOpt (modifyK
                          (ensureOpt (ensureOpt (ensureOpt st.stats (some kp)) v) a)
                          kp.steamID (killMod w hs)) v deathMod) a (assistMod af) := by
                    simp [dispatch, handleKill, hb]
                  show rawPair (statOfL (dispatch st true (.kill (some kp) v a w hs af)).stats id) = _
                  rw [hred,
                      proj_modOpt rawPair a (assistMod af) (fun r => rfl),
                      proj_modOpt rawPair v deathMod (fun r => rfl),
                      proj_modifyK rawPair (killMod w hs) (fun r => rfl),
                      proj_ensureOpt rawPair a (fun q r => rfl) (fun q => rfl),
                      proj_ensureOpt rawPair v (fun q r => rfl) (fun q => rfl),
                      proj_ensureOpt rawPair (some kp) (fun q r => rfl) (fun q => rfl)]
                  rfl
              | false =>
                  have hred : (dispatch st true (.kill (some kp) v a w hs af)).stats
                      = modOpt (modOpt (modOpt (modifyK (modifyK
                          (ensureOpt (ensureOpt (ensureOpt st.stats (some kp)) v) a)
                          kp.steamID (killMod w hs)) kp.steamID entryKillMod)
                          v entryDeathMod) v deathMod) a (assistMod af) := by
                    simp [dispatch, handleKill, hb]
                  show rawPair (statOfL (dispatch st true (.kill (some kp) v a w hs af)).stats id) = _
                  rw [hred,
                      proj_modOpt rawPair a (assistMod af) (fun r => rfl),
                      proj_modOpt rawPair v deathMod (fun r => rfl),
                      proj_modOpt rawPair v entryDeathMod (fun r => rfl),
                      proj_modifyK rawPair entryKillMod (fun r => rfl),
                      proj_modifyK rawPair (killMod w hs) (fun r => rfl),
                      proj_ensureOpt rawPair a (fun q r => rfl) (fun q => rfl),
                      proj_ensureOpt rawPair v (fun q r => rfl) (fun q => rfl),
                      proj_ensureOpt rawPair (some kp) (fun q r => rfl) (fun q => rfl)]
                  rfl
  | playerHurt att v hd w =>
      cases b with
      | false => rfl
      | true =>
          cases att with
          | none => rfl
          | some ap =>
              show rawPair (statOfL (modifyK (ensureStats st.stats ap) ap.steamID
                (dmgMod hd w)) id) = _
              rw [proj_modifyK rawPair (dmgMod hd w) (fun r => rfl),
                  proj_ensureStats rawPair (fun q r => rfl) (fun q => rfl)]
              rfl
  | playerFlashed att pl =>
      cases b with
      | false => rfl
      | true =>
          cases att with
          | none => rfl
          | some ap =>
              cases pl with
              | none => rfl
              | some pp =>
                  by_cases ht : ap.team ≠ pp.team
                  · have hred : (dispatch st true (.playerFlashed (some ap) (some pp))).stats
                        = modifyK (ensureStats st.stats ap) ap.steamID flashMod := by
                      simp [dispatch, ht]
                    show rawPair (statOfL (dispatch st true
                      (.playerFlashed (some ap) (some pp))).stats id) = _
                    rw [hred, proj_modifyK rawPair flashMod (fun r => rfl),
                        proj_ensureStats rawPair (fun q r => rfl) (fun q => rfl)]
                    rfl
                  · have hred : (dispatch st true (.playerFlashed (some ap) (some pp))).stats
                        = modifyK (ensureStats st.stats ap) ap.steamID teamFlashMod := by
                      simp [dispatch, ht]
                    show rawPair (statOfL (dispatch st true
                      (.playerFlashed (some ap) (some pp))).stats id) = _
                    rw [hred, proj_modifyK rawPair teamFlashMod (fun r => rfl),
                        proj_ensureStats rawPair (fun q r => rfl) (fun q => rfl)]
                    rfl
  | bombPlanted pl =>
      cases b with
      | false => rfl
      | true =>
          cases pl with
          | none => rfl
          | some pp =>
              show rawPair (statOfL (modifyK (ensureStats st.stats pp) pp.steamID
                plantMod) id) = _
              rw [proj_modifyK rawPair plantMod (fun r => rfl),
                  proj_ensureStats rawPair (fun q r => rfl) (fun q => rfl)]
              rfl
  | bombDefused pl =>
      cases b with
      | false => rfl
      | true =>
          cases pl with
          | none => rfl
          | some pp =>
              show rawPair (statOfL (modifyK (ensureStats st.stats pp) pp.steamID
                defuseMod) id) = _
              rw [proj_modifyK rawPair defuseMod (fun r => rfl),
                  proj_ensureStats rawPair (fun q r => rfl) (fun q => rfl)]
              rfl

/-- Every record reachable by a run from the initial state still has its
derived fields at zero when finalization begins. -/
theorem rawPair_zero_run (evs : List (Bool × Event)) (id : Nat) :
    rawPair (statOf (runEvents initState evs) id) = (0, 0) := by
  have main : ∀ (l : List (Bool × Event)) (st : ProcState),
      rawPair (statOf (runEvents st l) id) = rawPair (statOf st id) := by
    intro l
    induction l with
    | nil => intro st; rfl
    | cons be rest ih =>
        intro st
        exact (ih (dispatch st be.1 be.2)).trans (rawPair_const_dispatch st be.1 be.2 id)
  exact (main evs initState).trans rfl

/-- Shared content of claims C3 and C4: the pre-rounding derived values
on any reachable record. -/
theorem deriveRaw_run_formulas (evs : List (Bool × Event)) (id : Nat) :
    ((deriveRaw (runEvents initState evs).totalRounds (statOf (runEvents initState evs) id)).kd
      = (if (statOf (runEvents initState evs) id).deaths = 0
         then ((statOf (runEvents initState evs) id).kills : ℚ)
         else ((statOf (runEvents initState evs) id).kills : ℚ)
            / ((statOf (runEvents initState evs) id).deaths : ℚ))) ∧
    ((deriveRaw (runEvents initState evs).totalRounds (statOf (runEvents initState evs) id)).hsPercent
      = (if (statOf (runEvents initState evs) id).kills = 0 then 0
         else ((statOf (runEvents initState evs) id).headshots : ℚ)
            / ((statOf (runEvents initState evs) id).kills : ℚ) * 100)) ∧
    ((deriveRaw (runEvents initState evs).totalRounds (statOf (runEvents initState evs) id)).adr
      = (if (runEvents initState evs).totalRounds = 0 then 0
         else ((statOf (runEvents initState evs) id).damage : ℚ)
            / ((runEvents initState evs).totalRounds : ℚ))) := by
  have hz := rawPair_zero_run evs id
  have hhs : (statOf (runEvents initState evs) id).hsPercent = 0 := congrArg Prod.fst hz
  have hadr : (statOf (runEvents initState evs) id).adr = 0 := congrArg Prod.snd hz
  refine ⟨rfl, ?_, ?_⟩
  · show (if 0 < (statOf (runEvents initState evs) id).kills
        then ((statOf (runEvents initState evs) id).headshots : ℚ)
          / ((statOf (runEvents initState evs) id).kills : ℚ) * 100
        else (statOf (runEvents initState evs) id).hsPercent) = _
    rcases Nat.eq_zero_or_pos (statOf (runEvents initState evs) id).kills with h0 | hpos
    · simp [h0, hhs]
    · simp [hpos, Nat.pos_iff_ne_zero.mp hpos]
  · show (if 0 < (runEvents initState evs).totalRounds
        then ((statOf (runEvents initState evs) id).damage : ℚ)
          / ((runEvents initState evs).totalRounds : ℚ)
        else (statOf (runEvents initState evs) id).adr) = _
    rcases Nat.eq_zero_or_pos (runEvents initState evs).totalRounds with h0 | hpos
    · simp [h0, hadr]
    · simp [hpos, Nat.pos_iff_ne_zero.mp hpos]

/-- Claim C3: finalization computes, for every player of every run,
K/D = kills/deaths with the zero-death case yielding the kill count
exactly, HS% = (headshots/kills)·100 or 0 when kills = 0, and
ADR = damage/totalRounds or 0 when totalRounds = 0 (values shown before
the rounding lines; claim C4 covers the rounding). -/
theorem claim_C3_derived_formulas (evs : List (Bool × Event)) (id : Nat) :
    ((deriveRaw (runEvents initState evs).totalRounds (statOf (runEvents initState evs) id)).kd
      = (if (statOf (runEvents initState evs) id).deaths = 0
         then ((statOf (runEvents initState evs) id).kills : ℚ)
         else ((statOf (runEvents initState evs) id).kills : ℚ)
            / ((statOf (runEvents initState evs) id).deaths : ℚ))) ∧
    ((deriveRaw (runEvents initState evs).totalRounds (statOf (runEvents initState evs) id)).hsPercent
      = (if (statOf (runEvents initState evs) id).kills = 0 then 0
         else ((statOf (runEvents initState evs) id).headshots : ℚ)
            / ((statOf (runEvents initState evs) id).kills : ℚ) * 100)) ∧
    ((deriveRaw (runEvents initState evs).totalRounds (statOf (runEvents initState evs) id)).adr
      = (if (runEvents initState evs).totalRounds = 0 then 0
         else ((statOf (runEvents initState evs) id).damage : ℚ)
            / ((runEvents initState evs).totalRounds : ℚ))) :=
  deriveRaw_run_formulas evs id

/-- Claim C4: the emitted derived metrics are the raw formulas rounded by
truncation toward zero at fixed precision — K/D at two decimals, HS% and
ADR at one decimal — for every player of every run (in particular never
round-half-up, which would differ from this value whenever the scaled
fraction is at least one half). -/
theorem claim_C4_truncation (evs : List (Bool × Event)) (id : Nat) :
    ((finalizeStats (runEvents initState evs).totalRounds (statOf (runEvents initState evs) id)).kd
      = (truncTowardZero ((if (statOf (runEvents initState evs) id).deaths = 0
           then ((statOf (runEvents initState evs) id).kills : ℚ)
           else ((statOf (runEvents initState evs) id).kills : ℚ)
              / ((statOf (runEvents initState evs) id).deaths : ℚ)) * 100) : ℚ) / 100) ∧
    ((finalizeStats (runEvents initState evs).totalRounds (statOf (runEvents initState evs) id)).hsPercent
      = (truncTowardZero ((if (statOf (runEvents initState evs) id).kills = 0 then 0
           else ((statOf (runEvents initState evs) id).headshots : ℚ)
              / ((statOf (runEvents initState evs) id).kills : ℚ) * 100) * 10) : ℚ) / 10) ∧
    ((finalizeStats (runEvents initState evs).totalRounds (statOf (runEvents initState evs) id)).adr
      = (truncTowardZero ((if (runEvents initState evs).totalRounds = 0 then 0
           else ((statOf (runEvents initState evs) id).damage : ℚ)
              / ((runEvents initState evs).totalRounds : ℚ)) * 10) : ℚ) / 10) := by
  obtain ⟨h1, h2, h3⟩ := deriveRaw_run_formulas evs id
  refine ⟨?_, ?_, ?_⟩
  · show (truncTowardZero ((deriveRaw (runEvents initState evs).totalRounds
        (statOf (runEvents initState evs) id)).kd * 100) : ℚ) / 100 = _
    rw [h1]
  · show (truncTowardZero ((deriveRaw (runEvents initState evs).totalRounds
        (statOf (runEvents initState evs) id)).hsPercent * 10) : ℚ) / 10 = _
    rw [h2]
  · show (truncTowardZero ((deriveRaw (runEvents initState evs).totalRounds
        (statOf (runEvents initState evs) id)).adr * 10) : ℚ) / 10 = _
    rw [h3]

/-! ### Multi-kill bucketing (claim C2) -/

theorem lookupK_none_of_not_mem {κ α : Type} [DecidableEq κ] (l : List (κ × α)) (k : κ)
    (h : k ∉ l.map Prod.fst) : lookupK l k = none := by
  induction l with
  | nil => rfl
  | cons kv rest ih =>
      simp only [List.map_cons, List.mem_cons] at h
      push_neg at h
      have hne : ¬ kv.1 = k := fun hh => h.1 hh.symm
      simp [lookupK, hne, ih h.2]

/-- Concrete stream refuting claim C2: six gated kills by player 1 in one
round, then a gated `RoundEnd`. -/
def exC2 : List (Bool × Event) :=
  List.replicate 6 ((true : Bool), Event.kill (some wP1) (some wP2) none none false false)
    ++ [(true, Event.roundEnd)]

/-- Counterexample to claim C2 as stated: after a six-kill round the
claimed capped bucket 5 stays empty and bucket 6 holds the round — the
source increments `MultiKills[kills]` with the raw tally, no cap. -/
theorem claim_C2_counterexample :
    multiKillsOf (runEvents initState exC2) 1 5 = 0 ∧
    multiKillsOf (runEvents initState exC2) 1 6 = 1 := by
  constructor <;> rfl

/-- Effect of the round-end multi-kill pass on every bucket of every
player: bucket `b` of player `id` rises by one exactly when the round
tally map holds `b` for `id`, the tally is positive, and the player is
known; nothing else changes. -/
theorem multiKills_fold (l : List (Nat × Nat)) :
    ∀ (s : List (Nat × PlayerStats)), (l.map Prod.fst).Nodup → ∀ (id b : Nat),
    (lookupK (statOfL (roundEndFold l s) id).multiKills b).getD 0
      = (lookupK (statOfL s id).multiKills b).getD 0
        + (if lookupK l id = some b ∧ 0 < b ∧ (lookupK s id).isSome = true
           then 1 else 0) := by
  induction l with
  | nil =>
      intro s hnd id b
      simp [roundEndFold, lookupK]
  | cons kn rest ih =>
      obtain ⟨k, n⟩ := kn
      intro s hnd id b
      have hnd2 : (rest.map Prod.fst).Nodup := by
        simp only [List.map_cons, List.nodup_cons] at hnd
        exact hnd.2
      have hknotin : k ∉ rest.map Prod.fst := by
        simp only [List.map_cons, List.nodup_cons] at hnd
        exact hnd.1
      by_cases hn : 0 < n
      · cases hsk : lookupK s k with
        | none =>
            have hred : roundEndFold ((k, n) :: rest) s = roundEndFold rest s := by
              simp [roundEndFold, hn, hsk]
            rw [hred, ih s hnd2 id b]
            by_cases hk : k = id
            · have hrest : lookupK rest id = none := by
                rw [← hk]; exact lookupK_none_of_not_mem rest k hknotin
              have hsid : lookupK s id = none := by rw [← hk]; exact hsk
              simp [lookupK, hk, hrest, hsid]
            · have hcons : lookupK ((k, n) :: rest) id = lookupK rest id := by
                simp [lookupK, hk]
              rw [hcons]
        | some v =>
            have hred : roundEndFold ((k, n) :: rest) s
                = roundEndFold rest (modifyK s k (mkMod n)) := by
              simp [roundEndFold, hn, hsk]
            rw [hred, ih (modifyK s k (mkMod n)) hnd2 id b]
            by_cases hk : k = id
            · subst hk
              have hrest : lookupK rest k = none := lookupK_none_of_not_mem rest k hknotin
              have hpres : (lookupK s k).isSome = true := by rw [hsk]; rfl
              rw [statOfL_modifyK_self_present (mkMod n) hpres]
              have hmk : (lookupK (mkMod n (statOfL s k)).multiKills b).getD 0
                  = (lookupK (statOfL s k).multiKills b).getD 0
                    + (if b = n then 1 else 0) := by
                show (lookupK (bumpK (statOfL s k).multiKills n) b).getD 0 = _
                rw [lookupK_bumpK]
                by_cases hbn : b = n
                · simp [hbn]
                · simp [hbn]
              rw [hmk]
              have hconsk : lookupK ((k, n) :: rest) k = some n := by simp [lookupK]
              rw [hconsk]
              have hpres2 : (lookupK (modifyK s k (mkMod n)) k).isSome = true := by
                rw [isSome_lookupK_modifyK]; exact hpres
              by_cases hbn : b = n
              · simp [hbn, hrest, hn, hpres]
              · have : ¬ (some n = some b) := fun hh => hbn (Option.some.inj hh).symm
                simp [hbn, hrest, this]
            · have h1 : statOfL (modifyK s k (mkMod n)) id = statOfL s id :=
                statOfL_modifyK_other (fun hh => hk hh.symm)
              have h2 : (lookupK (modifyK s k (mkMod n)) id).isSome
                  = (lookupK s id).isSome := isSome_lookupK_modifyK s k (mkMod n) id
              rw [h1, h2]
              have hcons : lookupK ((k, n) :: rest) id = lookupK rest id := by
                simp [lookupK, hk]
              rw [hcons]
      · have hred : roundEndFold ((k, n) :: rest) s = roundEndFold rest s := by
          simp [roundEndFold, hn]
        rw [hred, ih s hnd2 id b]
        by_cases hk : k = id
        · have hn0 : n = 0 := Nat.eq_zero_of_not_pos hn
          have hrest : lookupK rest id = none := by
            rw [← hk]; exact lookupK_none_of_not_mem rest k hknotin
          have hcons : lookupK ((k, n) :: rest) id = some n := by simp [lookupK, hk]
          rw [hcons, hrest, hn0]
          by_cases hb0 : b = 0
          · simp [hb0]
          · have : ¬ (some 0 = some b) := fun hh => hb0 (Option.some.inj hh).symm
            simp [this]
        · have hcons : lookupK ((k, n) :: rest) id = lookupK rest id := by
            simp [lookupK, hk]
          rw [hcons]

/-- Claim C2 (amended): at each gated round end, for every player whose
round tally is positive, exactly one multi-kill bucket rises by exactly
one — the bucket at index equal to the raw tally (no cap at 5); buckets
of every other index and every other player are unchanged.  The
`Nodup` hypothesis states that the tally map has one entry per player,
which its construction (`bumpK`) guarantees. -/
theorem claim_C2_amended_multikill (st : ProcState)
    (hnd : (st.roundKills.map Prod.fst).Nodup) (id b : Nat) :
    multiKillsOf (dispatch st true Event.roundEnd) id b
      = multiKillsOf st id b
        + (if lookupK st.roundKills id = some b ∧ 0 < b
             ∧ (lookupK st.stats id).isSome = true then 1 else 0) :=
  multiKills_fold st.roundKills st.stats hnd id b

/-- A post-round state: player 1 known, tally 3 for player 1. -/
def exC2state : ProcState :=
  { stats := [(1, PlayerStats.init wP1)], totalRounds := 0,
    roundKills := [(1, 3)], firstKillOccurred := true }

/-- Witness for the amended C2: the three-kill bucket of player 1 rises
by one at round end. -/
theorem claim_C2_amended_witness :
    multiKillsOf (dispatch exC2state true Event.roundEnd) 1 3
      = multiKillsOf exC2state 1 3
        + (if lookupK exC2state.roundKills 1 = some 3 ∧ 0 < 3
             ∧ (lookupK exC2state.stats 1).isSome = true then 1 else 0) :=
  claim_C2_amended_multikill exC2state (by decide) 1 3

/-! ### Damage conservation (claim C9) -/

theorem sumDamage_modifyK_pres {l : List (Nat × PlayerStats)} {k : Nat}
    (f : PlayerStats → PlayerStats) (hf : ∀ r, (f r).damage = r.damage) :
    sumDamage (modifyK l k f) = sumDamage l := by
  induction l with
  | nil => rfl
  | cons kv rest ih =>
      by_cases hk : kv.1 = k
      · simp [modifyK, sumDamage, hk, hf]
      · simp [modifyK, sumDamage, hk, ih]

theorem sumDamage_append (l1 l2 : List (Nat × PlayerStats)) :
    sumDamage (l1 ++ l2) = sumDamage l1 + sumDamage l2 := by
  induction l1 with
  | nil => simp [sumDamage]
  | cons kv rest ih => simp [sumDamage, ih]; omega

theorem sumDamage_ensure (l : List (Nat × PlayerStats)) (p : Player) :
    sumDamage (ensureStats l p) = sumDamage l := by
  unfold ensureStats
  cases hl : lookupK l p.steamID with
  | none =>
      simp only [hl]
      rw [sumDamage_modifyK_pres (refreshIdent p) (fun r => rfl), sumDamage_append]
      simp [sumDamage, PlayerStats.init]
  | some v =>
      simp only [hl]
      rw [sumDamage_modifyK_pres (refreshIdent p) (fun r => rfl)]

theorem sumDamage_ensureOpt (l : List (Nat × PlayerStats)) (p? : Option Player) :
    sumDamage (ensureOpt l p?) = sumDamage l := by
  cases p? with
  | none => rfl
  | some p => exact sumDamage_ensure l p

theorem sumDamage_modOpt_pres (l : List (Nat × PlayerStats)) (p? : Option Player)
    (f : PlayerStats → PlayerStats) (hf : ∀ r, (f r).damage = r.damage) :
    sumDamage (modOpt l p? f) = sumDamage l := by
  cases p? with
  | none => rfl
  | some p => exact sumDamage_modifyK_pres f hf

theorem sumDamage_modifyK_add {l : List (Nat × PlayerStats)} {k : Nat}
    (f : PlayerStats → PlayerStats) (d : Nat)
    (hsome : (lookupK l k).isSome = true)
    (hf : ∀ r, (f r).damage = r.damage + d) :
    sumDamage (modifyK l k f) = sumDamage l + d := by
  induction l with
  | nil => simp [lookupK] at hsome
  | cons kv rest ih =>
      by_cases hk : kv.1 = k
      · simp only [modifyK, hk, if_true, sumDamage]
        rw [hf]
        omega
      · have hsome2 : (lookupK rest k).isSome = true := by
          simpa [lookupK, hk] using hsome
        simp only [modifyK, hk, if_false, sumDamage]
        rw [ih hsome2]
        omega

theorem sumDamage_roundEndFold (rk : List (Nat × Nat)) :
    ∀ l, sumDamage (roundEndFold rk l) = sumDamage l := by
  induction rk with
  | nil => intro l; rfl
  | cons kn rest ih =>
      obtain ⟨k, n⟩ := kn
      intro l
      show sumDamage (roundEndFold rest _) = _
      rw [ih]
      by_cases hn : 0 < n
      · simp only [hn, if_true]
        cases hl : lookupK l k with
        | none => rfl
        | some v => exact sumDamage_modifyK_pres (mkMod n) (fun r => rfl)
      · simp [hn]

/-- One dispatch step moves the total damage by exactly the amount the
attribution policy assigns to the event. -/
theorem sumDamage_dispatch (st : ProcState) (b : Bool) (e : Event) :
    sumDamage (dispatch st b e).stats = sumDamage st.stats + hurtAmount (b, e) := by
  cases e with
  | roundStart => simp [dispatch, hurtAmount]
  | roundEnd =>
      cases b with
      | false => simp [dispatch, hurtAmount]
      | true =>
          show sumDamage (roundEndFold st.roundKills st.stats) = _
          rw [sumDamage_roundEndFold]
          rfl
  | kill k v a w hs af =>
      cases b with
      | false => simp [dispatch, hurtAmount]
      | true =>
          cases k with
          | none =>
              show sumDamage (modOpt (modOpt
                (ensureOpt (ensureOpt (ensureOpt st.stats none) v) a) v deathMod)
                a (assistMod af)) = _
              rw [sumDamage_modOpt_pres _ a (assistMod af) (fun r => rfl),
                  sumDamage_modOpt_pres _ v deathMod (fun r => rfl),
                  sumDamage_ensureOpt _ a, sumDamage_ensureOpt _ v]
              rfl
          | some kp =>
              cases hb : st.firstKillOccurred with
              | true =>
                  have hred : (dispatch st true (.kill (some kp) v a w hs af)).stats
                      = modOpt (modOpt (modifyK
                          (ensureOpt (ensureOpt (ensureOpt st.stats (some kp)) v) a)
                          kp.steamID (killMod w hs)) v deathMod) a (assistMod af) := by
                    simp [dispatch, handleKill, hb]
                  rw [hred,
                      sumDamage_modOpt_pres _ a (assistMod af) (fun r => rfl),
                      sumDamage_modOpt_pres _ v deathMod (fun r => rfl),
                      sumDamage_modifyK_pres (killMod w hs) (fun r => rfl),
                      sumDamage_ensureOpt _ a, sumDamage_ensureOpt _ v,
                      sumDamage_ensureOpt _ (some kp)]
                  rfl
              | false =>
                  have hred : (dispatch st true (.kill (some kp) v a w hs af)).stats
                      = modOpt (modOpt (modOpt (modifyK (modifyK
                          (ensureOpt (ensureOpt (ensureOpt st.stats (some kp)) v) a)
                          kp.steamID (killMod w hs)) kp.steamID entryKillMod)
                          v entryDeathMod) v deathMod) a (assistMod af) := by
                    simp [dispatch, handleKill, hb]
                  rw [hred,
                      sumDamage_modOpt_pres _ a (assistMod af) (fun r => rfl),
                      sumDamage_modOpt_pres _ v deathMod (fun r => rfl),
                      sumDamage_modOpt_pres _ v entryDeathMod (fun r => rfl),
                      sumDamage_modifyK_pres entryKillMod (fun r => rfl),
                      sumDamage_modifyK_pres (killMod w hs) (fun r => rfl),
                      sumDamage_ensureOpt _ a, sumDamage_ensureOpt _ v,
                      sumDamage_ensureOpt _ (some kp)]
                  rfl
  | playerHurt att v hd w =>
      cases b with
      | false => simp [dispatch, hurtAmount]
      | true =>
          cases att with
          | none => simp [dispatch, hurtAmount]
          | some ap =>
              show sumDamage (modifyK (ensureStats st.stats ap) ap.steamID (dmgMod hd w)) = _
              rw [sumDamage_modifyK_add (dmgMod hd w) hd
                    (isSome_ensureStats_self st.stats ap) (fun r => rfl),
                  sumDamage_ensure]
              rfl
  | playerFlashed att pl =>
      cases b with
      | false => simp [dispatch, hurtAmount]
      | true =>
          cases att with
          | none => simp [dispatch, hurtAmount]
          | some ap =>
              cases pl with
              | none => simp [dispatch, hurtAmount]
              | some pp =>
                  by_cases ht : ap.team ≠ pp.team
                  · have hred : (dispatch st true (.playerFlashed (some ap) (some pp))).stats
                        = modifyK (ensureStats st.stats ap) ap.steamID flashMod := by
                      simp [dispatch, ht]
                    rw [hred, sumDamage_modifyK_pres flashMod (fun r => rfl),
                        sumDamage_ensure]
                    rfl
                  · have hred : (dispatch st true (.playerFlashed (some ap) (some pp))).stats
                        = modifyK (ensureStats st.stats ap) ap.steamID teamFlashMod := by
                      simp [dispatch, ht]
                    rw [hred, sumDamage_modifyK_pres teamFlashMod (fun r => rfl),
                        sumDamage_ensure]
                    rfl
  | bombPlanted pl =>
      cases b with
      | false => simp [dispatch, hurtAmount]
      | true =>
          cases pl with
          | none => simp [dispatch, hurtAmount]
          | some pp =>
              show sumDamage (modifyK (ensureStats st.stats pp) pp.steamID plantMod) = _
              rw [sumDamage_modifyK_pres plantMod (fun r => rfl), sumDamage_ensure]
              rfl
  | bombDefused pl =>
      cases b with
      | false => simp [dispatch, hurtAmount]
      | true =>
          cases pl with
          | none => simp [dispatch, hurtAmount]
          | some pp =>
              show sumDamage (modifyK (ensureStats st.stats pp) pp.steamID defuseMod) = _
              rw [sumDamage_modifyK_pres defuseMod (fun r => rfl), sumDamage_ensure]
              rfl

/-- Claim C9: for every event stream, the health damage summed over the
stream's `PlayerHurt` events under the engine's attribution policy
(match started, attacker non-nil — team and self damage included) equals
the sum of all players' final damage counters. -/
theorem claim_C9_damage_conservation (evs : List (Bool × Event)) :
    sumDamage (runEvents initState evs).stats = attributedHurtSum evs := by
  have main : ∀ (l : List (Bool × Event)) (st : ProcState),
      sumDamage (runEvents st l).stats = sumDamage st.stats + attributedHurtSum l := by
    intro l
    induction l with
    | nil => intro st; simp [attributedHurtSum, runEvents]
    | cons be rest ih =>
        intro st
        show sumDamage (runEvents (dispatch st be.1 be.2) rest).stats = _
        rw [ih (dispatch st be.1 be.2), sumDamage_dispatch]
        simp [attributedHurtSum]
        omega
  have h := main evs initState
  simpa [initState, sumDamage] using h

end Unbalanced
